import Mathlib

/-!
Shallow embedding of the Ludo game server (`src/index.js`) and proofs about it.

The rules engine (`canMovePiece`, `movePiece`, `checkCapture`, `getMovablePieces`,
`hasWon`), the room data model, and the socket event handlers (`join-room`,
`roll-dice`, `move-piece`, `disconnect`) are translated function by function.
JavaScript pieces are records; the per-color piece arrays are lists; the
`players` object and the `rooms` map are association lists in insertion order,
which is the iteration order of `Object.keys` / `Object.entries` / `Map`.
JavaScript `%` truncates toward zero, so it is rendered as `Int.tmod`.
A JavaScript `TypeError` thrown by dereferencing `undefined` is rendered as the
`crash` outcome of a handler.
-/

set_option autoImplicit false

namespace Ludo

/-- The four player colors, in the insertion order of the source's
`pieces` object (`red`, `green`, `yellow`, `blue`). -/
inductive Color where
  | red
  | green
  | yellow
  | blue
  deriving DecidableEq

/-- One movable token, as in `createGameState`: `position` is `-1` at home,
`0..51` on the main track, and `100 + i` for home-stretch cell `i`. -/
structure Piece where
  position : Int
  homeIndex : Nat
  isInHomeStretch : Bool
  deriving DecidableEq

/-- `const BOARD_SIZE = 52`. -/
def BOARD_SIZE : Int := 52

/-- `const START_POSITIONS = { red: 1, green: 14, yellow: 27, blue: 40 }`. -/
def START_POSITIONS : Color → Int
  | .red => 1
  | .green => 14
  | .yellow => 27
  | .blue => 40

/-- `const HOME_STRETCH_START = { red: 51, green: 12, yellow: 25, blue: 38 }`. -/
def HOME_STRETCH_START : Color → Int
  | .red => 51
  | .green => 12
  | .yellow => 25
  | .blue => 38

/-- `const SAFE_POSITIONS = [1, 9, 14, 22, 27, 35, 40, 48]`. -/
def SAFE_POSITIONS : List Int := [1, 9, 14, 22, 27, 35, 40, 48]

/-- `canMovePiece(piece, diceValue, color)`.  The `color` argument is unused in
the source as well. -/
def canMovePiece (piece : Piece) (diceValue : Int) (_color : Color) : Bool :=
  if piece.position = -1 then
    decide (diceValue = 6)
  else if piece.isInHomeStretch then
    decide (piece.position - 100 + diceValue ≤ 6)
  else
    true

/-- `movePiece(piece, diceValue, color)`: returns the updated piece together
with the `moved` flag.  (The `captured` field of the source's result object is
the local variable `captured`, which is never assigned and stays `null`.) -/
def movePiece (piece : Piece) (diceValue : Int) (color : Color) : Piece × Bool :=
  if piece.position = -1 ∧ diceValue = 6 then
    ({ piece with position := START_POSITIONS color }, true)
  else if piece.position = -1 then
    (piece, false)
  else if piece.isInHomeStretch then
    let homeStretchPosition := piece.position - 100
    if homeStretchPosition + diceValue ≤ 6 then
      ({ piece with position := 100 + homeStretchPosition + diceValue }, true)
    else
      (piece, false)
  else
    let newPosition := Int.tmod (piece.position + diceValue) BOARD_SIZE
    let homeStretchStart := HOME_STRETCH_START color
    if piece.position ≤ homeStretchStart ∧ newPosition > homeStretchStart then
      let stepsIntoHomeStretch := newPosition - homeStretchStart
      if stepsIntoHomeStretch ≤ 6 then
        ({ piece with position := 100 + stepsIntoHomeStretch, isInHomeStretch := true }, true)
      else
        ({ piece with position := newPosition }, true)
    else
      ({ piece with position := newPosition }, true)

/-- The inner loop of `checkCapture` over one color's piece array: find the
first piece sitting exactly at `pos` and not in its home stretch, reset it to
`position = -1` with the home-stretch flag cleared, and return its slot index
together with the updated array. -/
def captureScan (pos : Int) : List Piece → Option (Nat × List Piece)
  | [] => none
  | p :: rest =>
    if p.position = pos ∧ p.isInHomeStretch = false then
      some (0, { p with position := -1, isInHomeStretch := false } :: rest)
    else
      match captureScan pos rest with
      | some (i, rest') => some (i + 1, p :: rest')
      | none => none

/-- The piece arrays of one room, one list per color, as in `createGameState`. -/
structure PiecesState where
  red : List Piece
  green : List Piece
  yellow : List Piece
  blue : List Piece
  deriving DecidableEq

/-- `gameState.pieces[color]`. -/
def PiecesState.get (ps : PiecesState) : Color → List Piece
  | .red => ps.red
  | .green => ps.green
  | .yellow => ps.yellow
  | .blue => ps.blue

/-- Replace one color's piece array. -/
def PiecesState.set (ps : PiecesState) : Color → List Piece → PiecesState
  | .red, l => { ps with red := l }
  | .green, l => { ps with green := l }
  | .yellow, l => { ps with yellow := l }
  | .blue, l => { ps with blue := l }

/-- One color's initial piece array in `createGameState`: four pieces at home. -/
def initialPieceList : List Piece :=
  [⟨-1, 0, false⟩, ⟨-1, 1, false⟩, ⟨-1, 2, false⟩, ⟨-1, 3, false⟩]

/-- The `pieces` object of `createGameState`. -/
def createPieces : PiecesState :=
  ⟨initialPieceList, initialPieceList, initialPieceList, initialPieceList⟩

/-- Iteration order of `Object.entries(gameState.pieces)`: object insertion
order, i.e. red, green, yellow, blue. -/
def colorOrder : List Color := [.red, .green, .yellow, .blue]

/-- The outer loop of `checkCapture` over `Object.entries(gameState.pieces)`:
skip the moving color, and return on the first captured piece. -/
def checkCaptureColors (color : Color) (pos : Int) (ps : PiecesState) :
    List Color → PiecesState × Option (Color × Nat)
  | [] => (ps, none)
  | c :: cs =>
    if c = color then
      checkCaptureColors color pos ps cs
    else
      match captureScan pos (ps.get c) with
      | some (i, l') => (ps.set c l', some (c, i))
      | none => checkCaptureColors color pos ps cs

/-- `checkCapture(gameState, movedPiece, color, newPosition)`: returns the
updated piece arrays and the captured piece's color and index, if any. -/
def checkCapture (ps : PiecesState) (color : Color) (newPosition : Int) :
    PiecesState × Option (Color × Nat) :=
  if newPosition ∈ SAFE_POSITIONS then
    (ps, none)
  else
    checkCaptureColors color newPosition ps colorOrder

/-- `getMovablePieces(gameState, color, diceValue)`: the indexed pieces of that
color for which `canMovePiece` holds. -/
def getMovablePieces (ps : PiecesState) (color : Color) (diceValue : Int) :
    List (Nat × Piece) :=
  ((ps.get color).enum).filter (fun ip => canMovePiece ip.2 diceValue color)

/-- `hasWon(gameState, color)`. -/
def hasWon (ps : PiecesState) (color : Color) : Bool :=
  (ps.get color).all (fun p => p.isInHomeStretch && decide (p.position = 106))

/-- Claim C8: `canMovePiece` holds iff the die shows 6 when the piece is at
home; iff the stretch index `i = position - 100` satisfies `i + d ≤ 6` when the
piece is in its home stretch (no clamping, no wraparound); and always when the
piece is on the main track. -/
theorem canMovePiece_characterization (p : Piece) (d : Int) (c : Color)
    (hd1 : 1 ≤ d) (hd2 : d ≤ 6) :
    (p.position = -1 → (canMovePiece p d c = true ↔ d = 6)) ∧
    (p.position ≠ -1 → p.isInHomeStretch = true →
      (canMovePiece p d c = true ↔ (p.position - 100) + d ≤ 6)) ∧
    (p.position ≠ -1 → p.isInHomeStretch = false → canMovePiece p d c = true) := by
  unfold canMovePiece
  refine ⟨fun h1 => ?_, fun h1 h2 => ?_, fun h1 h2 => ?_⟩
  · simp [h1]
  · simp [h1, h2]
  · simp [h1, h2]

/-- Witness for C8: a piece at home with a die of 6 is movable. -/
theorem canMovePiece_characterization_witness :
    (1:Int) ≤ 6 ∧ (6:Int) ≤ 6 ∧ (⟨-1, 0, false⟩ : Piece).position = -1 ∧
      (canMovePiece ⟨-1, 0, false⟩ 6 .red = true ↔ (6:Int) = 6) :=
  ⟨by norm_num, by norm_num, rfl,
    (canMovePiece_characterization ⟨-1, 0, false⟩ 6 .red (by norm_num) (by norm_num)).1 rfl⟩

/-- Claim C9: whenever `canMovePiece` accepts a piece and die value, `movePiece`
reports `moved = true`; its `moved = false` branches are unreachable under that
precondition. -/
theorem movePiece_moved_of_canMovePiece (p : Piece) (d : Int) (c : Color)
    (h : canMovePiece p d c = true) : (movePiece p d c).2 = true := by
  unfold canMovePiece at h
  unfold movePiece
  split_ifs at h ⊢ <;> simp_all <;> split_ifs <;> rfl

/-- Witness for C9: moving a home piece out with a 6. -/
theorem movePiece_moved_of_canMovePiece_witness :
    canMovePiece ⟨-1, 0, false⟩ 6 .red = true ∧
      (movePiece ⟨-1, 0, false⟩ 6 .red).2 = true :=
  ⟨by decide, movePiece_moved_of_canMovePiece ⟨-1, 0, false⟩ 6 .red (by decide)⟩

/-- Claim C2 (divergence evidence): a red piece on the main track never enters
its home stretch.  Red's stretch-entry boundary is cell 51, so the crossing
test `piece.position <= 51 && newPosition > 51` can never fire: `newPosition`
is reduced modulo 52 and stays below 52.  The wraparound case the claim
describes (e.g. cell 48 plus a die of 5, which should enter the stretch at
index 2) instead lands the piece back on main-track cell 1. -/
theorem movePiece_red_never_enters_stretch (p : Piece) (d : Int)
    (h1 : p.position ≠ -1) (h2 : p.isInHomeStretch = false)
    (h3 : 0 ≤ p.position) (h4 : 0 ≤ d) :
    (movePiece p d .red).1.isInHomeStretch = false := by
  unfold movePiece
  have hnn : 0 ≤ p.position + d := by omega
  have hmod : Int.tmod (p.position + d) BOARD_SIZE = (p.position + d) % BOARD_SIZE :=
    Int.tmod_eq_emod hnn (by norm_num [BOARD_SIZE])
  have hlt : (p.position + d) % BOARD_SIZE < 52 := by
    have := Int.emod_lt_of_pos (p.position + d) (b := BOARD_SIZE) (by norm_num [BOARD_SIZE])
    simpa [BOARD_SIZE] using this
  have hcross : ¬ (p.position ≤ HOME_STRETCH_START .red ∧
      Int.tmod (p.position + d) BOARD_SIZE > HOME_STRETCH_START .red) := by
    rw [hmod]
    simp only [HOME_STRETCH_START]
    omega
  simp only [h1, h2]
  split_ifs <;> simp_all

/-- Witness for C2's divergence evidence: the red piece at main-track cell 48
with a die of 5 stays on the main track (at cell 1) instead of entering the
home stretch at index 2. -/
theorem movePiece_red_never_enters_stretch_witness :
    ((⟨48, 0, false⟩ : Piece).position ≠ -1) ∧
      ((⟨48, 0, false⟩ : Piece).isInHomeStretch = false) ∧
      (0 ≤ (⟨48, 0, false⟩ : Piece).position) ∧ ((0:Int) ≤ 5) ∧
      movePiece ⟨48, 0, false⟩ 5 .red = (⟨1, 0, false⟩, true) ∧
      (movePiece ⟨48, 0, false⟩ 5 .red).1.isInHomeStretch = false :=
  ⟨by decide, rfl, by decide, by decide, by decide,
    movePiece_red_never_enters_stretch ⟨48, 0, false⟩ 5 (by decide) rfl (by decide) (by decide)⟩

/-- A capture candidate for `checkCapture` at cell `pos`: a piece sitting
exactly there and not in its home stretch. -/
def capturable (pos : Int) (q : Piece) : Prop :=
  q.position = pos ∧ q.isInHomeStretch = false

instance (pos : Int) (q : Piece) : Decidable (capturable pos q) := by
  unfold capturable
  infer_instance

theorem captureScan_none_iff (pos : Int) (l : List Piece) :
    captureScan pos l = none ↔ ∀ q ∈ l, ¬ capturable pos q := by
  induction l with
  | nil => simp [captureScan]
  | cons p rest ih =>
    rw [captureScan]
    by_cases hp : p.position = pos ∧ p.isInHomeStretch = false
    · simp only [hp, and_self, if_true]
      constructor
      · intro h; exact absurd h (by simp)
      · intro h
        exact absurd (show capturable pos p from hp) (h p (List.mem_cons_self p rest))
    · simp only [hp, if_false]
      cases hrec : captureScan pos rest with
      | none =>
        refine ⟨fun _ q hq => ?_, fun _ => rfl⟩
        rcases List.mem_cons.mp hq with rfl | hq'
        · exact fun hcap => hp hcap
        · exact (ih.mp hrec) q hq'
      | some pr =>
        refine ⟨fun h => ?_, fun h => ?_⟩
        · exact absurd h (by simp)
        · have hnone : captureScan pos rest = none :=
            ih.mpr (fun q hq => h q (List.mem_cons_of_mem p hq))
          rw [hnone] at hrec
          exact absurd hrec (by simp)

theorem captureScan_some_spec (pos : Int) (l : List Piece) :
    ∀ (i : Nat) (l' : List Piece), captureScan pos l = some (i, l') →
      ∃ p, l.get? i = some p ∧ capturable pos p ∧
        l' = l.set i { p with position := -1, isInHomeStretch := false } ∧
        ∀ j, j < i → ∀ q, l.get? j = some q → ¬ capturable pos q := by
  induction l with
  | nil => intro i l' h; simp [captureScan] at h
  | cons p rest ih =>
    intro i l' h
    by_cases hp : capturable pos p
    · unfold capturable at hp
      simp only [captureScan, hp, and_self, if_true, Option.some.injEq, Prod.mk.injEq] at h
      obtain ⟨hi, hl'⟩ := h
      subst hi
      refine ⟨p, by simp, show capturable pos p from hp, by rw [← hl']; simp, ?_⟩
      intro j hj; omega
    · unfold capturable at hp
      rcases Option.eq_none_or_eq_some (captureScan pos rest) with hrec | ⟨pr, hrec⟩
      · have hstep : captureScan pos (p :: rest) = none := by
          rw [captureScan, if_neg hp, hrec]
        rw [hstep] at h
        exact absurd h (by simp)
      · obtain ⟨i0, rest'⟩ := pr
        have hstep : captureScan pos (p :: rest) = some (i0 + 1, p :: rest') := by
          rw [captureScan, if_neg hp, hrec]
        rw [hstep] at h
        simp only [Option.some.injEq, Prod.mk.injEq] at h
        obtain ⟨hi, hl'⟩ := h
        obtain ⟨q, hq1, hq2, hq3, hq4⟩ := ih i0 rest' hrec
        subst hi
        refine ⟨q, by simpa using hq1, hq2, by simp [hl'.symm, hq3], ?_⟩
        intro j hj r hr
        cases j with
        | zero =>
          simp only [List.get?_cons_zero, Option.some.injEq] at hr
          subst hr
          exact fun hcap => hp hcap
        | succ j0 =>
          simp only [List.get?_cons_succ] at hr
          exact hq4 j0 (by omega) r hr

theorem PiecesState.get_set_same (ps : PiecesState) (c : Color) (l : List Piece) :
    (ps.set c l).get c = l := by
  cases c <;> rfl

theorem PiecesState.get_set_ne (ps : PiecesState) (c c' : Color) (l : List Piece)
    (h : c' ≠ c) : (ps.set c l).get c' = ps.get c' := by
  cases c <;> cases c' <;> first | rfl | exact absurd rfl h

theorem checkCaptureColors_none (color : Color) (pos : Int) (ps : PiecesState) :
    ∀ cs : List Color, (checkCaptureColors color pos ps cs).2 = none →
      (checkCaptureColors color pos ps cs).1 = ps ∧
      ∀ c ∈ cs, c ≠ color → captureScan pos (ps.get c) = none := by
  intro cs
  induction cs with
  | nil => intro _; exact ⟨rfl, by simp⟩
  | cons c cs ih =>
    intro h
    by_cases hc : c = color
    · have hstep : checkCaptureColors color pos ps (c :: cs) =
          checkCaptureColors color pos ps cs := by
        rw [checkCaptureColors, if_pos hc]
      rw [hstep] at h ⊢
      obtain ⟨h1, h2⟩ := ih h
      refine ⟨h1, ?_⟩
      intro c' hc' hne
      rcases List.mem_cons.mp hc' with heq | hmem
      · exact absurd (heq.trans hc) hne
      · exact h2 c' hmem hne
    · rcases Option.eq_none_or_eq_some (captureScan pos (ps.get c)) with hscan | ⟨pr, hscan⟩
      · have hstep : checkCaptureColors color pos ps (c :: cs) =
            checkCaptureColors color pos ps cs := by
          rw [checkCaptureColors, if_neg hc, hscan]
        rw [hstep] at h ⊢
        obtain ⟨h1, h2⟩ := ih h
        refine ⟨h1, ?_⟩
        intro c' hc' hne
        rcases List.mem_cons.mp hc' with heq | hmem
        · rw [heq]; exact hscan
        · exact h2 c' hmem hne
      · obtain ⟨i0, l0⟩ := pr
        have hstep : checkCaptureColors color pos ps (c :: cs) = (ps.set c l0, some (c, i0)) := by
          rw [checkCaptureColors, if_neg hc, hscan]
        rw [hstep] at h
        exact absurd h (by simp)

theorem checkCaptureColors_some (color : Color) (pos : Int) (ps : PiecesState) :
    ∀ (cs : List Color) (c : Color) (i : Nat),
      (checkCaptureColors color pos ps cs).2 = some (c, i) →
      c ≠ color ∧
      (∃ l', captureScan pos (ps.get c) = some (i, l') ∧
        (checkCaptureColors color pos ps cs).1 = ps.set c l') ∧
      ∃ pre post, cs = pre ++ c :: post ∧
        ∀ c' ∈ pre, c' ≠ color → captureScan pos (ps.get c') = none := by
  intro cs
  induction cs with
  | nil => intro c i h; simp [checkCaptureColors] at h
  | cons c0 cs ih =>
    intro c i h
    by_cases hc : c0 = color
    · have hstep : checkCaptureColors color pos ps (c0 :: cs) =
          checkCaptureColors color pos ps cs := by
        rw [checkCaptureColors, if_pos hc]
      rw [hstep] at h
      obtain ⟨h1, ⟨l', hscan', hst⟩, pre, post, h3, h4⟩ := ih c i h
      refine ⟨h1, ⟨l', hscan', by rw [hstep]; exact hst⟩, c0 :: pre, post, by rw [h3]; rfl, ?_⟩
      intro c' hc' hne
      rcases List.mem_cons.mp hc' with heq | hmem
      · exact absurd (heq.trans hc) hne
      · exact h4 c' hmem hne
    · rcases Option.eq_none_or_eq_some (captureScan pos (ps.get c0)) with hscan | ⟨pr, hscan⟩
      · have hstep : checkCaptureColors color pos ps (c0 :: cs) =
            checkCaptureColors color pos ps cs := by
          rw [checkCaptureColors, if_neg hc, hscan]
        rw [hstep] at h
        obtain ⟨h1, ⟨l', hscan', hst⟩, pre, post, h3, h4⟩ := ih c i h
        refine ⟨h1, ⟨l', hscan', by rw [hstep]; exact hst⟩, c0 :: pre, post, by rw [h3]; rfl, ?_⟩
        intro c' hc' hne
        rcases List.mem_cons.mp hc' with heq | hmem
        · rw [heq]; exact hscan
        · exact h4 c' hmem hne
      · obtain ⟨i0, l0⟩ := pr
        have hstep : checkCaptureColors color pos ps (c0 :: cs) = (ps.set c0 l0, some (c0, i0)) := by
          rw [checkCaptureColors, if_neg hc, hscan]
        rw [hstep] at h
        simp only [Option.some.injEq, Prod.mk.injEq] at h
        obtain ⟨hceq, hieq⟩ := h
        subst hceq
        subst hieq
        exact ⟨hc, ⟨l0, hscan, by rw [hstep]⟩, [], cs, rfl, by simp⟩

theorem color_mem_colorOrder (c : Color) : c ∈ colorOrder := by
  cases c <;> decide

/-- Claim C7: capture resolution.  On a safe cell nothing is captured and
nothing changes.  If nothing is captured, the piece arrays are unchanged and
moreover, off the safe cells, no opposing piece not in its home stretch sits
at the landed cell: a capturable opposing piece on a non-safe cell is always
captured.  Otherwise, the captured piece is the first opposing piece at
exactly that cell not in its home stretch, in the red-green-yellow-blue color
order and ascending slot order; its position resets to home (-1) with the
home-stretch flag cleared; at most that one piece is captured; and every other
piece of every color is left unchanged. -/
theorem checkCapture_resolution (ps : PiecesState) (color : Color) (pos : Int) :
    (pos ∈ SAFE_POSITIONS → checkCapture ps color pos = (ps, none)) ∧
    ((checkCapture ps color pos).2 = none → (checkCapture ps color pos).1 = ps ∧
      (pos ∉ SAFE_POSITIONS → ∀ c, c ≠ color → ∀ q ∈ ps.get c, ¬ capturable pos q)) ∧
    (∀ c i, (checkCapture ps color pos).2 = some (c, i) →
      pos ∉ SAFE_POSITIONS ∧ c ≠ color ∧
      (∃ p, (ps.get c).get? i = some p ∧ capturable pos p ∧
        ((checkCapture ps color pos).1.get c).get? i =
          some { p with position := -1, isInHomeStretch := false }) ∧
      (∀ c' j, c' ≠ c ∨ j ≠ i →
        ((checkCapture ps color pos).1.get c').get? j = (ps.get c').get? j) ∧
      (∃ pre post, colorOrder = pre ++ c :: post ∧
        ∀ c' ∈ pre, c' ≠ color → ∀ q ∈ ps.get c', ¬ capturable pos q) ∧
      (∀ j, j < i → ∀ q, (ps.get c).get? j = some q → ¬ capturable pos q)) := by
  refine ⟨fun hsafe => by simp [checkCapture, hsafe], ?_, ?_⟩
  · intro hnone
    unfold checkCapture at hnone ⊢
    by_cases hsafe : pos ∈ SAFE_POSITIONS
    · rw [if_pos hsafe]
      exact ⟨rfl, fun hns => absurd hsafe hns⟩
    · simp only [hsafe, if_false] at hnone ⊢
      obtain ⟨h1, h2⟩ := checkCaptureColors_none color pos ps colorOrder hnone
      refine ⟨h1, fun _ c hc q hq => ?_⟩
      exact ((captureScan_none_iff pos (ps.get c)).mp (h2 c (color_mem_colorOrder c) hc)) q hq
  · intro c i hsome
    unfold checkCapture at hsome ⊢
    by_cases hsafe : pos ∈ SAFE_POSITIONS
    · simp [hsafe] at hsome
    · simp only [hsafe, if_false] at hsome ⊢
      obtain ⟨hne, ⟨l', hscan, hstate⟩, pre, post, hdec, hpre⟩ :=
        checkCaptureColors_some color pos ps colorOrder c i hsome
      obtain ⟨p, hp1, hp2, hp3, hp4⟩ := captureScan_some_spec pos (ps.get c) i l' hscan
      have hilen : i < (ps.get c).length := (List.get?_eq_some.mp hp1).1
      refine ⟨by simpa using hsafe, hne, ⟨p, hp1, hp2, ?_⟩, ?_, ?_, hp4⟩
      · rw [hstate, PiecesState.get_set_same, hp3]
        rw [List.get?_set_eq, hp1]
        rfl
      · intro c' j hor
        by_cases hcc : c' = c
        · subst hcc
          have hjne : j ≠ i := by tauto
          rw [hstate, PiecesState.get_set_same, hp3, List.get?_set_ne _ _ (Ne.symm hjne)]
        · rw [hstate, PiecesState.get_set_ne ps c c' l' hcc]
      · refine ⟨pre, post, hdec, ?_⟩
        intro c' hc' hne' q hq
        exact ((captureScan_none_iff pos (ps.get c')).mp (hpre c' hc' hne')) q hq

/-- Witness for C7: red moving to the unsafe cell 5 captures green's piece in
slot 0 sitting there, and green is not red. -/
theorem checkCapture_resolution_witness :
    (checkCapture ⟨initialPieceList, [⟨5, 0, false⟩, ⟨-1, 1, false⟩, ⟨-1, 2, false⟩,
        ⟨-1, 3, false⟩], initialPieceList, initialPieceList⟩ .red 5).2 =
      some (.green, 0) ∧ Color.green ≠ Color.red :=
  ⟨by decide,
    ((checkCapture_resolution ⟨initialPieceList, [⟨5, 0, false⟩, ⟨-1, 1, false⟩,
        ⟨-1, 2, false⟩, ⟨-1, 3, false⟩], initialPieceList, initialPieceList⟩
      .red 5).2.2 .green 0 (by decide)).2.1⟩

/-- One connected participant, as stored in `room.players[socket.id]`.
`color` is the result of `colors.find(...)` at join time, which is
`undefined` (here `none`) when every palette color is taken. -/
structure Player where
  name : String
  color : Option Color
  isHost : Bool
  deriving DecidableEq

/-- One game room, as stored in the `rooms` map: the spread of
`createGameState()` plus `roomCode` and `playerCount`.  `players` is the
source's players object, an association list from socket id to `Player` in
insertion order; `lastRoll` starts as `null` (`none`). -/
structure Room where
  roomCode : String
  players : List (String × Player)
  currentPlayer : Nat
  gameStarted : Bool
  diceValue : Int
  lastRoll : Option Int
  canRollAgain : Bool
  pieces : PiecesState
  playerCount : Nat
  deriving DecidableEq

/-- Key lookup in a JavaScript object or `Map` modelled as an association
list (`obj[k]`, `map.get(k)`). -/
def lookupKey {α : Type} (k : String) : List (String × α) → Option α
  | [] => none
  | (k', v) :: rest => if k' = k then some v else lookupKey k rest

/-- Key update for a key already present (`map.get(k)` mutated in place, or
`obj[k] = v` on an existing key): replaces the first binding of `k`. -/
def setEntry {α : Type} (k : String) (v : α) : List (String × α) → List (String × α)
  | [] => []
  | (k', v') :: rest => if k' = k then (k', v) :: rest else (k', v') :: setEntry k v rest

/-- `obj[k] = v` on a JavaScript object: replaces in place when the key
exists, otherwise appends in insertion order. -/
def putKey {α : Type} (k : String) (v : α) : List (String × α) → List (String × α)
  | [] => [(k, v)]
  | (k', v') :: rest => if k' = k then (k', v) :: rest else (k', v') :: putKey k v rest

/-- `delete obj[k]`: removes the binding of `k`, keeping the order of the
remaining keys. -/
def removeKey {α : Type} (k : String) : List (String × α) → List (String × α)
  | [] => []
  | (k', v') :: rest => if k' = k then rest else (k', v') :: removeKey k rest

/-- `array[i]` for a JavaScript index that may be out of range or negative:
`undefined` is `none`. -/
def jsIndex {α : Type} (l : List α) (i : Int) : Option α :=
  if 0 ≤ i then l.get? i.toNat else none

/-- The outbound socket events the handlers emit.  `roomError` and
`gameError` go only to the named requester; the others are room broadcasts. -/
inductive Event where
  | roomError (target : String) (msg : String)
  | gameError (target : String) (msg : String)
  | joinedRoom (target : String)
  | playerJoined (p : Player)
  | diceRolled (value : Int) (currentPlayer : Nat) (movable : List Nat) (canRollAgain : Bool)
  | turnSwitched (currentPlayer : Nat)
  | pieceMoved (color : Option Color) (pieceIndex : Int) (oldPos : Int) (newPos : Int)
      (captured : Option (Color × Nat)) (won : Bool) (anotherTurn : Bool)
  | gameWon (color : Option Color) (playerName : String)
  | playerLeft (sid : String)
  deriving DecidableEq

/-- Outcome of one socket event handler: the updated `rooms` map and the
emitted events, or `crash` when the JavaScript handler would throw a
`TypeError` by dereferencing `undefined`. -/
inductive HandlerResult where
  | ok (rooms : List (String × Room)) (events : List Event)
  | crash
  deriving DecidableEq

/-- The palette literal `['red', 'green', 'yellow', 'blue']` of the
`join-room` handler. -/
def paletteColors : List Color := [.red, .green, .yellow, .blue]

/-- The `join-room` handler. -/
def joinRoomHandler (rooms : List (String × Room)) (roomCode : String) (sid : String)
    (playerName : String) : HandlerResult :=
  match lookupKey roomCode rooms with
  | none => .ok rooms [.roomError sid "Room not found"]
  | some room =>
    if 4 ≤ room.playerCount then .ok rooms [.roomError sid "Room is full"]
    else if room.gameStarted then .ok rooms [.roomError sid "Game already started"]
    else
      let usedColors := room.players.map (fun kv => kv.2.color)
      let availableColor := paletteColors.find? (fun c => decide (¬ some c ∈ usedColors))
      let newPlayer : Player := ⟨playerName, availableColor, false⟩
      let room' := { room with
        players := putKey sid newPlayer room.players,
        playerCount := room.playerCount + 1 }
      .ok (setEntry roomCode room' rooms) [.joinedRoom sid, .playerJoined newPlayer]

/-- The `roll-dice` handler.  The random die value is passed in as a
parameter. -/
def rollDiceHandler (rooms : List (String × Room)) (roomCode : String) (sid : String)
    (diceValue : Int) : HandlerResult :=
  match lookupKey roomCode rooms with
  | none => .ok rooms []
  | some room =>
    if room.gameStarted = false then .ok rooms []
    else
      let playerIds := room.players.map Prod.fst
      let currentPlayerId := playerIds.get? room.currentPlayer
      if currentPlayerId ≠ some sid then .ok rooms [.gameError sid "Not your turn"]
      else
        match lookupKey sid room.players with
        | none => .crash
        | some player =>
          match player.color with
          | none => .crash
          | some playerColor =>
            let room1 := { room with
              diceValue := diceValue,
              lastRoll := some diceValue,
              canRollAgain := decide (diceValue = 6) }
            let movablePieces := getMovablePieces room1.pieces playerColor diceValue
            let ev1 := Event.diceRolled diceValue room1.currentPlayer
              (movablePieces.map Prod.fst) room1.canRollAgain
            if movablePieces = [] ∧ diceValue ≠ 6 then
              let room2 := { room1 with
                currentPlayer := (room1.currentPlayer + 1) % room1.playerCount,
                canRollAgain := false }
              .ok (setEntry roomCode room2 rooms) [ev1, .turnSwitched room2.currentPlayer]
            else
              .ok (setEntry roomCode room1 rooms) [ev1]

/-- Lines 362-368 of the `move-piece` handler: `anotherTurn` and the turn
advance.  Returns the updated room and the `anotherTurn` flag. -/
def updateTurnAfterMove (room : Room) (captured : Option (Color × Nat))
    (hasPlayerWon : Bool) : Room × Bool :=
  let anotherTurn := decide (room.lastRoll = some 6 ∨ captured ≠ none)
  if anotherTurn = false ∨ hasPlayerWon = true then
    ({ room with
        currentPlayer := (room.currentPlayer + 1) % room.playerCount,
        canRollAgain := false }, anotherTurn)
  else (room, anotherTurn)

/-- The `move-piece` handler.  `room.pieces[playerColor][pieceIndex]` being
`undefined` (a piece slot outside 0-3) makes `canMovePiece` throw; that path
is the `crash` outcome. -/
def movePieceHandler (rooms : List (String × Room)) (roomCode : String) (sid : String)
    (pieceIndex : Int) : HandlerResult :=
  match lookupKey roomCode rooms with
  | none => .ok rooms []
  | some room =>
    if room.gameStarted = false then .ok rooms []
    else
      let playerIds := room.players.map Prod.fst
      let currentPlayerId := playerIds.get? room.currentPlayer
      if currentPlayerId ≠ some sid then .ok rooms []
      else
        match lookupKey sid room.players with
        | none => .crash
        | some player =>
          match player.color with
          | none => .crash
          | some playerColor =>
            match jsIndex (room.pieces.get playerColor) pieceIndex with
            | none => .crash
            | some piece =>
              let diceValue := room.diceValue
              if canMovePiece piece diceValue playerColor = false then
                .ok rooms [.gameError sid "Invalid move"]
              else
                let oldPosition := piece.position
                let mr := movePiece piece diceValue playerColor
                if mr.2 = false then
                  .ok rooms [.gameError sid "Cannot move this piece"]
                else
                  let piece1 := mr.1
                  let pieces1 := room.pieces.set playerColor
                    ((room.pieces.get playerColor).set pieceIndex.toNat piece1)
                  let cres :=
                    if piece1.position ≠ -1 ∧ piece1.isInHomeStretch = false then
                      checkCapture pieces1 playerColor piece1.position
                    else (pieces1, none)
                  let hasPlayerWon := hasWon cres.1 playerColor
                  let room1 := { room with pieces := cres.1 }
                  let tr := updateTurnAfterMove room1 cres.2 hasPlayerWon
                  let evs := [Event.pieceMoved (some playerColor) pieceIndex oldPosition
                    piece1.position cres.2 hasPlayerWon tr.2]
                  let evs2 := if hasPlayerWon then
                      evs ++ [Event.gameWon (some playerColor) player.name]
                    else evs
                  .ok (setEntry roomCode tr.1 rooms) evs2

/-- The host-reassignment block of the `disconnect` handler:
`room.players[remainingPlayers[0]].isHost = true` guarded by
`remainingPlayers.length > 0`. -/
def makeFirstPlayerHost (players : List (String × Player)) : List (String × Player) :=
  match players with
  | [] => []
  | (k, p) :: rest => (k, { p with isHost := true }) :: rest

/-- The body of the `disconnect` handler for the room that contains the
departing socket: returns `none` when the room is deleted.  The host check
`room.players[socket.id]?.isHost` is performed after `delete
room.players[socket.id]`, exactly as in the source. -/
def disconnectRoomUpdate (room : Room) (sid : String) : Option Room :=
  let players' := removeKey sid room.players
  let playerCount' := room.playerCount - 1
  if playerCount' = 0 then none
  else
    let players'' :=
      match lookupKey sid players' with
      | some p => if p.isHost then makeFirstPlayerHost players' else players'
      | none => players'
    some { room with players := players'', playerCount := playerCount' }

/-- The `disconnect` handler: walk the rooms map in insertion order, process
the first room containing the socket, and stop (the source's `break`). -/
def disconnectHandler (sid : String) :
    List (String × Room) → List (String × Room) × List Event
  | [] => ([], [])
  | (code, room) :: rest =>
    if (lookupKey sid room.players).isSome then
      match disconnectRoomUpdate room sid with
      | none => (rest, [])
      | some room' => ((code, room') :: rest, [.playerLeft sid])
    else
      let r := disconnectHandler sid rest
      ((code, room) :: r.1, r.2)

/-- Number of players of a room flagged as host. -/
def countHosts (players : List (String × Player)) : Nat :=
  (players.filter (fun kv => kv.2.isHost)).length

/-- A host as `create-room` builds one. -/
def alice : Player := ⟨"Alice", some .red, true⟩

/-- A second player as `join-room` builds one. -/
def bob : Player := ⟨"Bob", some .green, false⟩

/-- A third player as `join-room` builds one. -/
def carol : Player := ⟨"Carol", some .yellow, false⟩

/-- A started two-player room (host red to move, nothing rolled yet). -/
def roomAB : Room :=
  { roomCode := "R", players := [("a", alice), ("b", bob)], currentPlayer := 0,
    gameStarted := true, diceValue := 1, lastRoll := none, canRollAgain := false,
    pieces := createPieces, playerCount := 2 }

/-- A started three-player room in which the third player has the turn. -/
def room3 : Room :=
  { roomCode := "R", players := [("a", alice), ("b", bob), ("c", carol)], currentPlayer := 2,
    gameStarted := true, diceValue := 3, lastRoll := some 3, canRollAgain := false,
    pieces := createPieces, playerCount := 3 }

/-- A one-player lobby room, as left by `create-room`. -/
def roomSolo : Room :=
  { roomCode := "R", players := [("a", alice)], currentPlayer := 0,
    gameStarted := false, diceValue := 1, lastRoll := none, canRollAgain := false,
    pieces := createPieces, playerCount := 1 }

/-- Claim C1 (divergence evidence): when the host of a two-player room
disconnects, the handler checks `room.players[socket.id]?.isHost` after having
deleted that very key, so the host-transfer branch never runs: the surviving
room keeps one player and zero hosts, not exactly one host. -/
theorem disconnect_host_not_transferred :
    (disconnectHandler "a" [("R", roomAB)]).1.map
      (fun kv => (kv.1, kv.2.playerCount, countHosts kv.2.players)) = [("R", 2 - 1, 0)] := by
  rfl

/-- Claim C3 (divergence evidence): the disconnect handler never touches
`currentPlayer`.  Removing a player from a three-player room whose
`currentPlayer` is 2 leaves `currentPlayer = 2` with `playerCount = 2`, so
`currentPlayer < playerCount` no longer holds. -/
theorem disconnect_currentPlayer_out_of_range :
    (disconnectHandler "a" [("R", room3)]).1.map
      (fun kv => (kv.2.currentPlayer, kv.2.playerCount)) = [(2, 2)] ∧ ¬ ((2:Nat) < 2) :=
  ⟨by rfl, by decide⟩

/-- Claim C4 (divergence evidence): a `move-piece` request from the current
player of a started room with piece slot 4 reads
`room.pieces[color][4] = undefined` and then `canMovePiece` dereferences
`piece.position`, so the handler throws instead of rejecting. -/
theorem movePiece_handler_crashes_on_bad_index :
    movePieceHandler [("R", roomAB)] "R" "a" 4 = .crash := by
  rfl

/-- Claim C5: after a legal executed move, the acting player keeps the turn
(`currentPlayer` unchanged) iff the last roll was a 6 or the move captured a
piece, and the player has not just won; otherwise `currentPlayer` advances by
one modulo the current player count. -/
theorem updateTurnAfterMove_retention (room : Room) (captured : Option (Color × Nat))
    (won : Bool) (hcp : room.currentPlayer < room.playerCount)
    (hpc : 2 ≤ room.playerCount) :
    (((updateTurnAfterMove room captured won).1.currentPlayer = room.currentPlayer) ↔
      ((room.lastRoll = some 6 ∨ captured ≠ none) ∧ won = false)) ∧
    (¬ ((room.lastRoll = some 6 ∨ captured ≠ none) ∧ won = false) →
      (updateTurnAfterMove room captured won).1.currentPlayer =
        (room.currentPlayer + 1) % room.playerCount) := by
  have hmod : (room.currentPlayer + 1) % room.playerCount ≠ room.currentPlayer := by
    rcases Nat.lt_or_ge (room.currentPlayer + 1) room.playerCount with hlt | hge
    · rw [Nat.mod_eq_of_lt hlt]; omega
    · have heq : room.currentPlayer + 1 = room.playerCount := by omega
      rw [heq, Nat.mod_self]; omega
  unfold updateTurnAfterMove
  by_cases hA : room.lastRoll = some 6 ∨ captured ≠ none
  · by_cases hW : won = true
    · simp [hA, hW, hmod]
    · simp only [Bool.not_eq_true] at hW
      simp [hA, hW]
  · simp [hA, hmod]

/-- Witness for C5: with a pending roll of 6 and no capture and no win, the
turn is retained in a two-player room. -/
theorem updateTurnAfterMove_retention_witness :
    roomAB.currentPlayer < roomAB.playerCount ∧ 2 ≤ roomAB.playerCount ∧
      (((updateTurnAfterMove roomAB none false).1.currentPlayer = roomAB.currentPlayer) ↔
        ((roomAB.lastRoll = some 6 ∨ (none : Option (Color × Nat)) ≠ none) ∧ false = false)) :=
  ⟨by decide, by decide,
    (updateTurnAfterMove_retention roomAB none false (by decide) (by decide)).1⟩

/-- The color names used by the source's palette strings. -/
def colorName : Color → String
  | .red => "red"
  | .green => "green"
  | .yellow => "yellow"
  | .blue => "blue"

/-- Modelled from the spec's words "the lexicographically-first color not yet
used": the palette ordered lexicographically by color name, which is blue,
green, red, yellow.  The source's `join-room` uses `paletteColors` order
instead; this definition exists to compare the two. -/
def specLexPalette : List Color := [.blue, .green, .red, .yellow]

theorem specLexPalette_sorted_perm :
    List.Sorted (fun a b => (colorName a).data < (colorName b).data) specLexPalette ∧
      specLexPalette.Perm paletteColors := by
  constructor
  · decide
  · decide

/-- Claim C6 counterexample: in a room where only red is used, `join-room`
assigns green (first unused in palette order red, green, yellow, blue), but
the lexicographically-first unused color is blue. -/
theorem joinRoom_color_not_lexicographic :
    joinRoomHandler [("R", roomSolo)] "R" "b" "Bob" =
      .ok [("R", { roomSolo with
          players := [("a", alice), ("b", ⟨"Bob", some .green, false⟩)],
          playerCount := 2 })]
        [.joinedRoom "b", .playerJoined ⟨"Bob", some .green, false⟩] ∧
    specLexPalette.find?
      (fun c => decide (¬ some c ∈ roomSolo.players.map (fun kv => kv.2.color))) =
      some .blue ∧
    Color.green ≠ Color.blue :=
  ⟨by rfl, by rfl, by decide⟩

theorem lookupKey_putKey_self {α : Type} (k : String) (v : α) (l : List (String × α)) :
    lookupKey k (putKey k v l) = some v := by
  induction l with
  | nil => simp [putKey, lookupKey]
  | cons kv rest ih =>
    obtain ⟨k', v'⟩ := kv
    by_cases hk : k' = k
    · simp [putKey, hk, lookupKey]
    · simp [putKey, hk, lookupKey, ih]

/-- Claim C6 amended: `join-room` fails with "Room not found" when the code
names no room, "Room is full" when 4 players are present, "Game already
started" when play has begun; on success the joining player is assigned the
first color not yet used in the fixed palette order red, green, yellow, blue
(the source's palette order, not lexicographic order). -/
theorem joinRoom_behavior (rooms : List (String × Room)) (roomCode sid name : String) :
    (lookupKey roomCode rooms = none →
      joinRoomHandler rooms roomCode sid name = .ok rooms [.roomError sid "Room not found"]) ∧
    (∀ room, lookupKey roomCode rooms = some room → 4 ≤ room.playerCount →
      joinRoomHandler rooms roomCode sid name = .ok rooms [.roomError sid "Room is full"]) ∧
    (∀ room, lookupKey roomCode rooms = some room → room.playerCount < 4 →
      room.gameStarted = true →
      joinRoomHandler rooms roomCode sid name =
        .ok rooms [.roomError sid "Game already started"]) ∧
    (∀ room, lookupKey roomCode rooms = some room → room.playerCount < 4 →
      room.gameStarted = false →
      ∃ room', joinRoomHandler rooms roomCode sid name =
          .ok (setEntry roomCode room' rooms)
            [.joinedRoom sid, .playerJoined ⟨name, paletteColors.find?
              (fun c => decide (¬ some c ∈ room.players.map (fun kv => kv.2.color))), false⟩] ∧
        lookupKey sid room'.players = some ⟨name, paletteColors.find?
          (fun c => decide (¬ some c ∈ room.players.map (fun kv => kv.2.color))), false⟩ ∧
        room'.playerCount = room.playerCount + 1) := by
  refine ⟨fun h => ?_, fun room h hfull => ?_, fun room h hnotfull hstarted => ?_,
    fun room h hnotfull hnotstarted => ?_⟩
  · unfold joinRoomHandler
    rw [h]
  · unfold joinRoomHandler
    rw [h]
    simp [hfull]
  · unfold joinRoomHandler
    rw [h]
    have : ¬ (4 ≤ room.playerCount) := by omega
    simp [this, hstarted]
  · unfold joinRoomHandler
    rw [h]
    have h4 : ¬ (4 ≤ room.playerCount) := by omega
    refine ⟨{ room with
      players := putKey sid ⟨name, paletteColors.find?
        (fun c => decide (¬ some c ∈ room.players.map (fun kv => kv.2.color))), false⟩
        room.players,
      playerCount := room.playerCount + 1 }, ?_, ?_, rfl⟩
    · simp [h4, hnotstarted]
    · exact lookupKey_putKey_self sid _ room.players

/-- Witness for C6's amended claim: "Bob" joining the solo lobby room gets
green, the first palette color not used. -/
theorem joinRoom_behavior_witness :
    lookupKey "R" [("R", roomSolo)] = some roomSolo ∧ roomSolo.playerCount < 4 ∧
      roomSolo.gameStarted = false ∧
      ∃ room', joinRoomHandler [("R", roomSolo)] "R" "b" "Bob" =
          .ok (setEntry "R" room' [("R", roomSolo)])
            [.joinedRoom "b", .playerJoined ⟨"Bob", paletteColors.find?
              (fun c => decide (¬ some c ∈ roomSolo.players.map (fun kv => kv.2.color))), false⟩] ∧
        lookupKey "b" room'.players = some ⟨"Bob", paletteColors.find?
          (fun c => decide (¬ some c ∈ roomSolo.players.map (fun kv => kv.2.color))), false⟩ ∧
        room'.playerCount = roomSolo.playerCount + 1 :=
  ⟨rfl, by decide, rfl,
    (joinRoom_behavior [("R", roomSolo)] "R" "b" "Bob").2.2.2 roomSolo rfl (by decide) rfl⟩

/-- Claim C10: a `roll-dice` or `move-piece` request whose room code names no
room, or whose room has not started its game, returns silently: the rooms map
is unchanged and no event is emitted, not even an error to the requester. -/
theorem handlers_silent_without_started_game (rooms : List (String × Room))
    (roomCode sid : String) (diceValue pieceIndex : Int)
    (h : lookupKey roomCode rooms = none ∨
      ∃ room, lookupKey roomCode rooms = some room ∧ room.gameStarted = false) :
    rollDiceHandler rooms roomCode sid diceValue = .ok rooms [] ∧
    movePieceHandler rooms roomCode sid pieceIndex = .ok rooms [] := by
  unfold rollDiceHandler movePieceHandler
  rcases h with h | ⟨room, h1, h2⟩
  · rw [h]
    exact ⟨rfl, rfl⟩
  · rw [h1]
    simp [h2]

/-- Witness for C10: an unknown room code leaves an empty rooms map untouched
and emits nothing. -/
theorem handlers_silent_without_started_game_witness :
    lookupKey "X" ([] : List (String × Room)) = none ∧
      rollDiceHandler [] "X" "s" 1 = .ok [] [] ∧
      movePieceHandler [] "X" "s" 0 = .ok [] [] :=
  ⟨rfl, handlers_silent_without_started_game [] "X" "s" 1 0 (Or.inl rfl)⟩

end Ludo
